import Mathlib

/-
Verification development for the canvas-auto-grade repository.

The TypeScript sources are shallowly embedded: pure computations become
Lean functions over `List Char` / `String` / `ℚ`; the effectful pieces
(the LLM transport, Playwright page actions, the filesystem) are
abstracted as explicit parameters (`oracle : String → Except String String`,
a directory listing `List String`, an observed batch-status trace, ...).
JavaScript semantics (JSON.parse, parseFloat, the concrete regular
expressions, falsiness of 0, `||` defaulting, Map insertion order) are
modelled explicitly where the embedded code depends on them.
-/

namespace AutoGrade

/- ### Characters that the token rules make awkward to write literally -/

def cQuote : Char := Char.ofNat 34

def cBackslash : Char := Char.ofNat 92

def cLBrace : Char := Char.ofNat 123

def cRBrace : Char := Char.ofNat 125

/- ### JS whitespace and digits

`\s` in JS regexes and the whitespace skipped by `parseFloat` / `Number`
also contain some exotic unicode spaces; the embedded strings are
ASCII + CJK, so the ASCII whitespace set (plus NBSP) is modelled. -/

def isJsWs (c : Char) : Bool :=
  c = ' ' || c = '\t' || c = '\n' || c = '\r' || c = '\x0b' || c = '\x0c' ||
  c = Char.ofNat 160

def isRegexNewline (c : Char) : Bool :=
  c = '\n' || c = '\r' || c = Char.ofNat 8232 || c = Char.ofNat 8233

/-- Split off the leading run of ASCII digits. -/
def digitSpan (cs : List Char) : List Char × List Char :=
  (cs.takeWhile Char.isDigit, cs.dropWhile Char.isDigit)

def digitsToNat (ds : List Char) : Nat :=
  ds.foldl (fun a c => a * 10 + (c.toNat - 48)) 0

/-- Exact rational value of the decimal literal `whole.fracDs`. -/
def decValue (whole fracDs : List Char) : ℚ :=
  (digitsToNat whole : ℚ) + (digitsToNat fracDs : ℚ) / (10 : ℚ) ^ fracDs.length

/-- Strip a leading sign, returning `-1`/`1` and the rest.  `plusAllowed`
distinguishes `parseFloat`-style literals (sign `+` accepted) from JSON
numbers (`-` only). -/
def signSplit (plusAllowed : Bool) (cs : List Char) : ℚ × List Char :=
  match cs.head? with
  | some c =>
    if c = '-' then (-1, cs.tail)
    else if plusAllowed ∧ c = '+' then (1, cs.tail)
    else (1, cs)
  | none => (1, cs)

/-- An exponent suffix `[eE] [+-]? digits+` as an integer, with the rest;
`none` when there is no well-formed exponent at this position. -/
def expSuffix (cs : List Char) : Option (ℤ × List Char) :=
  match cs.head? with
  | some c =>
    if c = 'e' ∨ c = 'E' then
      let t := cs.tail
      let (esgn, t1) : ℤ × List Char :=
        match t.head? with
        | some s => if s = '-' then (-1, t.tail) else if s = '+' then (1, t.tail) else (1, t)
        | none => (1, t)
      let (eDs, t2) := digitSpan t1
      if eDs.isEmpty then none else some (esgn * (digitsToNat eDs : ℤ), t2)
    else none
  | none => none

/-- Core of a JS decimal-literal scan: parses the longest prefix of the form
`digits [. digits*] | . digits+` followed by an optional exponent, returning
the value and the unconsumed rest.  `none` models NaN (no valid prefix).
(`Infinity` literals and hex forms are not modelled; no embedded input uses
them.) -/
def parseFloatCore (cs : List Char) : Option (ℚ × List Char) :=
  let (sgn, afterSign) := signSplit true cs
  let (whole, afterWhole) := digitSpan afterSign
  let base? : Option (ℚ × List Char) :=
    if whole.isEmpty then
      match afterWhole with
      | '.' :: r =>
        let (fracDs, r2) := digitSpan r
        if fracDs.isEmpty then none else some (decValue [] fracDs, r2)
      | _ => none
    else
      match afterWhole with
      | '.' :: r =>
        let (fracDs, r2) := digitSpan r
        some (decValue whole fracDs, r2)
      | _ => some (decValue whole [], afterWhole)
  match base? with
  | none => none
  | some (b, afterBase) =>
    match expSuffix afterBase with
    | some (e, afterExp) => some (sgn * b * (10 : ℚ) ^ e, afterExp)
    | none => some (sgn * b, afterBase)

/-- JS `parseFloat`: skip leading whitespace, take the longest numeric
prefix; `none` models NaN. -/
def jsParseFloat (s : String) : Option ℚ :=
  (parseFloatCore (s.data.dropWhile isJsWs)).map Prod.fst

/-- JS `Number(string)`: the whole trimmed string must be numeric;
the empty (all-whitespace) string is 0; `none` models NaN. -/
def jsStringToNumber (s : String) : Option ℚ :=
  let t := ((s.data.dropWhile isJsWs).reverse.dropWhile isJsWs).reverse
  if t.isEmpty then some 0
  else
    match parseFloatCore t with
    | some (q, []) => some q
    | _ => none

/-- Rendering of a JS number as a string (`Number.prototype.toString`).
Exact for integers and finite decimal fractions; other rationals (which a
double cannot hold exactly anyway) fall back to a fraction rendering.  No
theorem below depends on this rendering. -/
def qToString (q : ℚ) : String :=
  if q.den = 1 then toString q.num
  else
    match (List.range 40).find? (fun k => (q * (10 : ℚ) ^ k).den = 1) with
    | some k =>
      let n := (q * (10 : ℚ) ^ k).num
      let sign := if n < 0 then "-" else ""
      let s := toString n.natAbs
      let s := if s.length ≤ k then String.mk (List.replicate (k + 1 - s.length) '0') ++ s else s
      sign ++ s.take (s.length - k) ++ "." ++ s.drop (s.length - k)
    | none => toString q.num ++ "/" ++ toString q.den

/- ### Literal matching helpers (hand-compiled regex pieces) -/

/-- Consume an exact literal; `some rest` on success. -/
def dropLit : List Char → List Char → Option (List Char)
  | cs, [] => some cs
  | [], _ :: _ => none
  | c :: cs, p :: ps => if c = p then dropLit cs ps else none

/-- Consume an exact literal, case-insensitively (`i` flag). -/
def dropLitCI : List Char → List Char → Option (List Char)
  | cs, [] => some cs
  | [], _ :: _ => none
  | c :: cs, p :: ps => if c.toLower = p.toLower then dropLitCI cs ps else none

/-- Split at the leftmost case-insensitive occurrence of a (nonempty)
literal: `some (before, after)` with `after` starting right after the
literal. -/
def splitAtLitCI (lit : List Char) : List Char → Option (List Char × List Char)
  | [] => none
  | c :: cs =>
    match dropLitCI (c :: cs) lit with
    | some rest => some ([], rest)
    | none => (splitAtLitCI lit cs).map (fun p => (c :: p.1, p.2))

/-- Exactly `n` characters satisfying `p` (e.g. `\d{7}`). -/
def takeCount : Nat → (Char → Bool) → List Char → Option (List Char × List Char)
  | 0, _, cs => some ([], cs)
  | _ + 1, _, [] => none
  | n + 1, p, c :: cs =>
    if p c then (takeCount n p cs).map (fun r => (c :: r.1, r.2)) else none

/-- JS `String.prototype.replace` with a plain-string pattern replaces only
the first occurrence. -/
def replaceFirstAux (pat rep : List Char) : List Char → List Char
  | [] => []
  | c :: cs =>
    match dropLit (c :: cs) pat with
    | some rest => rep ++ rest
    | none => c :: replaceFirstAux pat rep cs

def replaceFirst (s pat rep : String) : String :=
  if pat.data.isEmpty then s else String.mk (replaceFirstAux pat.data rep.data s.data)

/- ### JSON values and `JSON.parse` -/

inductive Json where
  | null : Json
  | bool (b : Bool) : Json
  | num (q : ℚ) : Json
  | str (s : String) : Json
  | arr (elems : List Json) : Json
  | obj (members : List (String × Json)) : Json

def hexDigitVal (c : Char) : Option Nat :=
  if c.isDigit then some (c.toNat - 48)
  else if 'a' ≤ c ∧ c ≤ 'f' then some (c.toNat - 87)
  else if 'A' ≤ c ∧ c ≤ 'F' then some (c.toNat - 55)
  else none

/-- JSON string body after the opening quote.  Escape sequences per the JSON
grammar; raw control characters are rejected.  (`\u` surrogate pairs are not
recombined — `Char.ofNat` maps a lone surrogate to NUL; no embedded input
contains one.) -/
def parseJStringAux : List Char → Option (List Char × List Char)
  | [] => none
  | c :: cs =>
    if c = cQuote then some ([], cs)
    else if c = cBackslash then
      match cs with
      | [] => none
      | e :: cs1 =>
        if e = 'u' then
          match cs1 with
          | h1 :: h2 :: h3 :: h4 :: cs2 =>
            match hexDigitVal h1, hexDigitVal h2, hexDigitVal h3, hexDigitVal h4 with
            | some a, some b, some c2, some d =>
              (parseJStringAux cs2).map
                (fun r => (Char.ofNat (((a * 16 + b) * 16 + c2) * 16 + d) :: r.1, r.2))
            | _, _, _, _ => none
          | _ => none
        else
          let esc : Option Char :=
            if e = cQuote then some cQuote
            else if e = cBackslash then some cBackslash
            else if e = '/' then some '/'
            else if e = 'b' then some (Char.ofNat 8)
            else if e = 'f' then some (Char.ofNat 12)
            else if e = 'n' then some '\n'
            else if e = 'r' then some '\r'
            else if e = 't' then some '\t'
            else none
          match esc with
          | some ch => (parseJStringAux cs1).map (fun r => (ch :: r.1, r.2))
          | none => none
    else if c.toNat < 32 then none
    else (parseJStringAux cs).map (fun r => (c :: r.1, r.2))

/-- JSON number: `-? (0 | [1-9] digits) (. digits+)? ([eE] [+-]? digits+)?`.
Exact rational value (JSON.parse rounds to a double; the inputs in this
development are all exactly representable).  A malformed exponent suffix is
left unconsumed, which produces the same SyntaxError one level up, since a
stray `e` can never start a valid continuation of any JSON context. -/
def parseJNumber (cs : List Char) : Option (ℚ × List Char) :=
  let (sgn, afterSign) := signSplit false cs
  let (whole, afterWhole) := digitSpan afterSign
  if whole.isEmpty then none
  else if whole.length > 1 ∧ whole.head? = some '0' then none
  else
    let frac? : Option (List Char × List Char) :=
      match afterWhole with
      | '.' :: r =>
        let (fracDs, r2) := digitSpan r
        if fracDs.isEmpty then none else some (fracDs, r2)
      | _ => some ([], afterWhole)
    match frac? with
    | none => none
    | some (fracDs, afterFrac) =>
      match expSuffix afterFrac with
      | some (e, afterExp) => some (sgn * decValue whole fracDs * (10 : ℚ) ^ e, afterExp)
      | none => some (sgn * decValue whole fracDs, afterFrac)

def skipJWs (cs : List Char) : List Char :=
  cs.dropWhile (fun c => c = ' ' || c = '\t' || c = '\n' || c = '\r')

/-- Parsing mode of the recursive-descent JSON reader: a single value, the
elements of a (nonempty) array body, or the members of a (nonempty) object
body. -/
inductive JMode where
  | value : JMode
  | elems : JMode
  | members : JMode

/-- Heterogeneous result of the three parsing modes. -/
inductive JOut where
  | v (j : Json) : JOut
  | es (l : List Json) : JOut
  | ms (l : List (String × Json)) : JOut

/-- The recursive-descent JSON reader, written as one fuel-indexed function
(rather than three mutually recursive ones) so that it reduces by iota in
the kernel. -/
def parseJM : Nat → JMode → List Char → Option (JOut × List Char)
  | 0, _, _ => none
  | fuel + 1, .value, cs0 =>
    match skipJWs cs0 with
    | [] => none
    | c :: r =>
      if c = 'n' then (dropLit r "ull".data).map (fun rest => (.v .null, rest))
      else if c = 't' then (dropLit r "rue".data).map (fun rest => (.v (.bool true), rest))
      else if c = 'f' then (dropLit r "alse".data).map (fun rest => (.v (.bool false), rest))
      else if c = cQuote then
        (parseJStringAux r).map (fun p => (.v (.str (String.mk p.1)), p.2))
      else if c = '[' then
        match skipJWs r with
        | ']' :: r2 => some (.v (.arr []), r2)
        | r1 =>
          match parseJM fuel .elems r1 with
          | some (.es l, rest) => some (.v (.arr l), rest)
          | _ => none
      else if c = cLBrace then
        match skipJWs r with
        | c2 :: r2 =>
          if c2 = cRBrace then some (.v (.obj []), r2)
          else
            match parseJM fuel .members (c2 :: r2) with
            | some (.ms l, rest) => some (.v (.obj l), rest)
            | _ => none
        | [] => none
      else
        (parseJNumber (c :: r)).map (fun p => (.v (.num p.1), p.2))
  | fuel + 1, .elems, cs =>
    match parseJM fuel .value cs with
    | some (.v j, rest) =>
      (match skipJWs rest with
       | ',' :: r =>
         match parseJM fuel .elems r with
         | some (.es l, rest2) => some (.es (j :: l), rest2)
         | _ => none
       | ']' :: r => some (.es [j], r)
       | _ => none)
    | _ => none
  | fuel + 1, .members, cs =>
    match skipJWs cs with
    | c :: r =>
      if c = cQuote then
        match parseJStringAux r with
        | none => none
        | some (key, r1) =>
          match skipJWs r1 with
          | ':' :: r2 =>
            match parseJM fuel .value r2 with
            | some (.v v, r3) =>
              (match skipJWs r3 with
               | ',' :: r4 =>
                 match parseJM fuel .members r4 with
                 | some (.ms l, rest2) => some (.ms ((String.mk key, v) :: l), rest2)
                 | _ => none
               | c5 :: r5 =>
                 if c5 = cRBrace then some (.ms [(String.mk key, v)], r5) else none
               | [] => none)
            | _ => none
          | _ => none
      else none
    | [] => none

/-- `JSON.parse`: a top-level value with nothing but whitespace around it;
`none` models a thrown SyntaxError. -/
def jsonParse (s : String) : Option Json :=
  match parseJM (s.length * 2 + 8) .value s.data with
  | some (.v j, rest) => if (skipJWs rest).isEmpty then some j else none
  | _ => none

/-- JS object property lookup on a parsed JSON object: with duplicate keys,
`JSON.parse` keeps the last occurrence. -/
def lastField (ms : List (String × Json)) (k : String) : Option Json :=
  (ms.reverse.find? (fun p => p.1 = k)).map Prod.snd

mutual

/-- JS `String(...)` of an array element for `Array.prototype.join`:
null renders as the empty string. -/
def jsElemStr : Json → String
  | .null => ""
  | .bool b => if b then "true" else "false"
  | .num q => qToString q
  | .str s => s
  | .arr xs => String.intercalate "," (jsElemStrList xs)
  | .obj _ => "[object Object]"

def jsElemStrList : List Json → List String
  | [] => []
  | j :: js => jsElemStr j :: jsElemStrList js

end

/-- `v.toString()` on a JSON value; `none` models the TypeError thrown on
`null`. -/
def jsToStringOpt : Json → Option String
  | .null => none
  | .bool b => some (if b then "true" else "false")
  | .num q => some (qToString q)
  | .str s => some s
  | .arr xs => some (String.intercalate "," (jsElemStrList xs))
  | .obj _ => some "[object Object]"

/-- JS `Number(v)` coercion of a JSON value; `none` models NaN. -/
def jsNumCoerce : Json → Option ℚ
  | .null => some 0
  | .bool b => some (if b then (1 : ℚ) else 0)
  | .num q => some q
  | .str s => jsStringToNumber s
  | .arr xs => jsStringToNumber (String.intercalate "," (jsElemStrList xs))
  | .obj _ => none

/-- JS global `isNaN(v)` (coercing). -/
def jsIsNaN (v : Json) : Bool := (jsNumCoerce v).isNone

/- ### src/src/types/index.ts — data model of the grader pipeline -/

/-- `SubmissionInfo` as constructed by `parseFileName` in
src/src/services/file-parser.ts (the `files` accumulator variant that the
running code uses). -/
structure SubmissionInfo where
  studentNumber : String
  studentId : String
  questionId : String
  submissionId : String
  files : List String
deriving DecidableEq

structure Question where
  questionId : String
  description : Option String
  maxPoint : Option ℚ
  rubric : String
deriving DecidableEq

/-- `GradingResult` of src/src/types/index.ts.  The TS declaration says
`grade: number`, but `parseResponse` can deposit any JSON value there
(`data.grade` is only transformed, never validated), so the field is
embedded as a JSON value; the parser paths below only ever put `Json.num`
in it for numeric inputs. -/
structure GradingResult where
  studentId : String
  questionId : String
  grade : Json
  comment : String
  gradedAt : String

/- ### src/src/services/grader.ts — GradingService -/

/-- The structured layer of `GradingService.parseResponse`:
`JSON.parse(response)`, the `typeof data.grade/data.comment === 'undefined'`
check (throwing `Invalid response format`), the string→`parseFloat` and
`isNaN → 0` normalisation of `grade`, and `data.comment.toString()`.
`.error e` models a thrown exception caught by the regex fallback; the two
engine-generated messages (SyntaxError / TypeError) are abbreviated to their
names, `Invalid response format` is the source's own string. -/
def structuredGradeComment (response : String) : Except String (Json × String) :=
  match jsonParse response with
  | none => .error "SyntaxError"
  | some Json.null => .error "TypeError"
  | some (Json.obj ms) =>
    match lastField ms "grade", lastField ms "comment" with
    | some g, some c =>
      match jsToStringOpt c with
      | some cs =>
        let grade : Json :=
          match g with
          | .str s =>
            match jsParseFloat s with
            | some q => .num q
            | none => .num 0
          | v => if jsIsNaN v then .num 0 else v
        .ok (grade, cs)
      | none => .error "TypeError"
    | _, _ => .error "Invalid response format"
  | some _ => .error "Invalid response format"

def isDigitDot (c : Char) : Bool := c.isDigit || c = '.'

/-- Literal `"grade":` (with the quotes) of the fallback regex. -/
def gradeKeyLit : List Char := cQuote :: ("grade".data ++ [cQuote, ':'])

/-- Literal `"comment":` (with the quotes) of the fallback regex. -/
def commentKeyLit : List Char := cQuote :: ("comment".data ++ [cQuote, ':'])

/-- Lazy capture `(.*?)` followed by a closing quote: the shortest run of
non-newline characters up to the next quote. -/
def lazyCapture : List Char → Option (List Char)
  | [] => none
  | c :: cs =>
    if c = cQuote then some []
    else if isRegexNewline c then none
    else (lazyCapture cs).map (fun r => c :: r)

/-- One attempt, at a fixed start position, of the fallback regex
`/"grade":\s*([\d.]+),\s*"comment":\s*"(.*?)"/` of
`GradingService.parseResponse`.  Returns the two captures. -/
def matchGradeCommentAt (cs : List Char) : Option (String × String) :=
  match dropLit cs gradeKeyLit with
  | none => none
  | some cs1 =>
    let (numDs, cs3) := (cs1.dropWhile isJsWs).span isDigitDot
    if numDs.isEmpty then none
    else
      match cs3 with
      | ',' :: cs4 =>
        match dropLit (cs4.dropWhile isJsWs) commentKeyLit with
        | none => none
        | some cs6 =>
          match cs6.dropWhile isJsWs with
          | q :: cs8 =>
            if q = cQuote then
              (lazyCapture cs8).map (fun cap => (String.mk numDs, String.mk cap))
            else none
          | [] => none
      | _ => none

/-- Leftmost match of the fallback regex over the whole response. -/
def scanGradeComment : List Char → Option (String × String)
  | [] => none
  | c :: cs =>
    match matchGradeCommentAt (c :: cs) with
    | some r => some r
    | none => scanGradeComment cs

def regexGradeComment (response : String) : Option (String × String) :=
  scanGradeComment response.data

/-- `GradingService.parseResponse` (src/src/services/grader.ts:87-132):
structured JSON parse first; on any exception, the regex fallback; on no
match, the degraded zero-grade result.  `now` stands for
`new Date().toLocaleString(...)`. -/
def parseResponse (now response studentId questionId : String) : GradingResult :=
  match structuredGradeComment response with
  | .ok (g, c) =>
    { studentId := studentId, questionId := questionId,
      grade := g, comment := c, gradedAt := now }
  | .error e =>
    match regexGradeComment response with
    | some (numStr, comment) =>
      { studentId := studentId, questionId := questionId,
        grade := .num ((jsParseFloat numStr).getD 0),
        comment := comment, gradedAt := now }
    | none =>
      { studentId := studentId, questionId := questionId,
        grade := .num 0,
        comment := "> Error parsing grading response: " ++ e,
        gradedAt := now }

/-- `GradingService.constructPrompt` (src/src/services/grader.ts:60-82). -/
def constructPrompt (content questionDescription rubric : String) (maxPoint : ℚ) : String :=
  "\n**Question Description**:\n```\n" ++ questionDescription ++
  "\n```\n\n**Student Submission**:\n```python\n" ++ content ++
  "\n```\n\n**Grading Rubric**:\n" ++ rubric ++
  "\n\nPlease grade this submission based on the rubric above. The grade should be out of " ++
  qToString maxPoint ++
  " points.\nProvide your response in JSON format with the following structure:\n\x7b\n  \"grade\": <numeric grade>,\n  \"comment\": \"<feedback in Chinese>\"\n\x7d\n"

/-- `question.maxPoint || 100` — JS `||` also replaces 0. -/
def effectiveMaxPoint (q : Question) : ℚ :=
  match q.maxPoint with
  | some m => if m = 0 then 100 else m
  | none => 100

/-- `question.description || 'No description provided'`. -/
def effectiveDescription (q : Question) : String :=
  match q.description with
  | some d => if d = "" then "No description provided" else d
  | none => "No description provided"

/-- The prompt `GradingService.gradeSubmission` sends to the oracle. -/
def gradePrompt (content : String) (question : Question) : String :=
  constructPrompt content (effectiveDescription question)
    (replaceFirst question.rubric "\x7bmaxPoint\x7d" (qToString (effectiveMaxPoint question)))
    (effectiveMaxPoint question)

/-- `GradingService.gradeSubmission` (src/src/services/grader.ts:20-55).
The LLM transport is abstracted as `oracle : String → Except String String`
(`.error e` models a rejected promise with message `e`).  The `try/catch`
wrapping the whole body means the function always returns a result: a thrown
transport error or the `Empty response from LLM` throw lands in the catch,
which builds the degraded zero-grade result. -/
def gradeSubmission (now : String) (oracle : String → Except String String)
    (submission : SubmissionInfo) (content : String) (question : Question) : GradingResult :=
  match oracle (gradePrompt content question) with
  | .error e =>
    { studentId := submission.studentId, questionId := submission.questionId,
      grade := .num 0,
      comment := "> Error grading submission: " ++ e,
      gradedAt := now }
  | .ok response =>
    if response = "" then
      { studentId := submission.studentId, questionId := submission.questionId,
        grade := .num 0,
        comment := "> Error grading submission: Empty response from LLM",
        gradedAt := now }
    else
      parseResponse now response submission.studentId submission.questionId

/- ### src/src/llm-api.ts — the other oracle client generation -/

/-- `GradingResult` of src/src/types.ts (the llm-api pipeline). -/
structure OracleGradingResult where
  score : ℚ
  feedback : String
  explanation : String
deriving DecidableEq

/-- One attempt of `/SCORE:\s*(\d+(\.\d+)?)/i` at a fixed position:
case-insensitive literal, `\s*`, digits, optional fraction.  Returns the
exact value of the captured decimal (which `parseFloat` re-parses). -/
def matchScoreAt (cs : List Char) : Option ℚ :=
  match dropLitCI cs "SCORE:".data with
  | none => none
  | some cs1 =>
    let (ds, cs3) := (cs1.dropWhile isJsWs).span Char.isDigit
    if ds.isEmpty then none
    else
      match cs3 with
      | '.' :: cs4 =>
        let (fs, _) := cs4.span Char.isDigit
        some (decValue ds fs)
      | _ => some (decValue ds [])

def scanScore : List Char → Option ℚ
  | [] => none
  | c :: cs =>
    match matchScoreAt (c :: cs) with
    | some q => some q
    | none => scanScore cs

/-- Capture of `/FEEDBACK:\s*([\s\S]*?)(?=EXPLANATION:|$)/i` followed by
`.trim()`: everything after the first `FEEDBACK:` and its whitespace, up to
the first `EXPLANATION:` (case-insensitive) or the end. -/
def extractFeedback (response : String) : String :=
  match splitAtLitCI "FEEDBACK:".data response.data with
  | none => ""
  | some (_, rest) =>
    let rest1 := rest.dropWhile isJsWs
    match splitAtLitCI "EXPLANATION:".data rest1 with
    | some (before, _) => (String.mk before).trim
    | none => (String.mk rest1).trim

/-- Capture of `/EXPLANATION:\s*([\s\S]*?)$/i` followed by `.trim()`. -/
def extractExplanation (response : String) : String :=
  match splitAtLitCI "EXPLANATION:".data response.data with
  | none => ""
  | some (_, rest) => (String.mk (rest.dropWhile isJsWs)).trim

/-- `parseGradingResponse` (src/src/llm-api.ts:95-129).  A missing SCORE
yields 0; the final score is `Math.min(Math.max(0, score), maxPoints)`.
(The surrounding `try/catch` is unreachable — these string operations do
not throw — so only the `try` branch is embedded.) -/
def parseGradingResponse (response : String) (maxPoints : ℚ) : OracleGradingResult :=
  let score := (scanScore response.data).getD 0
  { score := min (max 0 score) maxPoints,
    feedback := extractFeedback response,
    explanation := extractExplanation response }

/-- `formatGradingPrompt` (src/src/llm-api.ts:63-90). -/
def formatGradingPrompt (question studentSubmission rubric : String) (maxPoints : ℚ) : String :=
  "\nPlease grade the following student submission:\n\nASSIGNMENT QUESTION:\n```html\n" ++
  question ++ "\n```\n\nSTUDENT SUBMISSION:\n```py\n" ++ studentSubmission ++
  "\n```\n\nRUBRIC:\n" ++ rubric ++
  "\n\nPlease provide:\n1. A numerical score out of " ++ qToString maxPoints ++
  " points\n2. Specific feedback for the student in Chinese\n3. A brief explanation of your grading rationale\n\nFormat your response as:\nSCORE: [numerical score]\nFEEDBACK: [feedback for student]\nEXPLANATION: [your grading rationale]\n"

/-- `gradeSubmission` of src/src/llm-api.ts:16-58: on a transport error the
catch returns the fixed fallback result; otherwise the (possibly empty)
response content is parsed. -/
def llmApiGradeSubmission (oracle : String → Except String String)
    (question studentSubmission rubric : String) (maxPoints : ℚ) : OracleGradingResult :=
  match oracle (formatGradingPrompt question studentSubmission rubric maxPoints) with
  | .ok content => parseGradingResponse content maxPoints
  | .error _ =>
    { score := 0,
      feedback := "Error in grading process. Please review manually.",
      explanation := "LLM API error occurred" }

/- ### src/src/services/file-parser.ts — filename grammar and grouping -/

inductive AssignmentType where
  | group : AssignmentType
  | single : AssignmentType
deriving DecidableEq

/-- `path.basename` for forward-slash paths (the joins in this code never
produce trailing slashes): the characters after the last `/`. -/
def basename (p : String) : String :=
  String.mk (p.data.foldl (fun acc c => if c = '/' then [] else acc ++ [c]) [])

/-- `/^(\d{7})(\d{6})_question_(\d{6})_(\d{7})_(.+)$/` — all pieces are
fixed-width or literal, so the match is deterministic; `(.+)$` requires a
nonempty remainder without line terminators (JS `.` excludes them and `$`
is end-of-input). -/
def matchGroupName (cs : List Char) : Option (String × String × String × String × String) :=
  match takeCount 7 Char.isDigit cs with
  | none => none
  | some (sn, r1) =>
    match takeCount 6 Char.isDigit r1 with
    | none => none
    | some (sid, r2) =>
      match dropLit r2 "_question_".data with
      | none => none
      | some r3 =>
        match takeCount 6 Char.isDigit r3 with
        | none => none
        | some (qid, r4) =>
          match r4 with
          | '_' :: r5 =>
            match takeCount 7 Char.isDigit r5 with
            | none => none
            | some (subId, r6) =>
              match r6 with
              | '_' :: rest =>
                if rest.isEmpty || rest.any isRegexNewline then none
                else some (String.mk sn, String.mk sid, String.mk qid,
                           String.mk subId, String.mk rest)
              | _ => none
          | _ => none

/-- The `(\d{6})_(\d{7})_(.+)$` tail shared by both branches of the
optional `(?:LATE_)?` group. -/
def matchSingleTail (cs : List Char) : Option (String × String × String) :=
  match takeCount 6 Char.isDigit cs with
  | none => none
  | some (sid, r1) =>
    match r1 with
    | '_' :: r2 =>
      match takeCount 7 Char.isDigit r2 with
      | none => none
      | some (subId, r3) =>
        match r3 with
        | '_' :: rest =>
          if rest.isEmpty || rest.any isRegexNewline then none
          else some (String.mk sid, String.mk subId, String.mk rest)
        | _ => none
    | _ => none

/-- `/^(\d{7})_(?:LATE_)?(\d{6})_(\d{7})_(.+)$/` — the optional `LATE_`
infix is tried first (greedy), with backtracking to the plain branch. -/
def matchSingleName (cs : List Char) : Option (String × String × String × String) :=
  match takeCount 7 Char.isDigit cs with
  | none => none
  | some (sn, r1) =>
    match r1 with
    | '_' :: r2 =>
      let tail? :=
        match dropLit r2 "LATE_".data with
        | some r3 =>
          match matchSingleTail r3 with
          | some t => some t
          | none => matchSingleTail r2
        | none => matchSingleTail r2
      tail?.map (fun t => (String.mk sn, t.1, t.2.1, t.2.2))
    | _ => none

/-- `parseFileName` (src/src/services/file-parser.ts:11-60).
`assignmentId` stands for `config.assignmentId`, used as the `questionId`
of single-mode submissions. -/
def parseFileName (filePath : String) (assignmentType : AssignmentType)
    (assignmentId : String) : Option SubmissionInfo :=
  let fileName := basename filePath
  match assignmentType with
  | .group =>
    (matchGroupName fileName.data).map fun x =>
      { studentNumber := x.1, studentId := x.2.1, questionId := x.2.2.1,
        submissionId := x.2.2.2.1, files := [filePath] }
  | .single =>
    (matchSingleName fileName.data).map fun x =>
      { studentNumber := x.1, studentId := x.2.1, questionId := assignmentId,
        submissionId := x.2.2.1, files := [filePath] }

/-- Lookup in the insertion-ordered `Map<string, SubmissionInfo>`. -/
def assocFind (m : List (String × SubmissionInfo)) (k : String) : Option SubmissionInfo :=
  (m.find? (fun p => p.1 = k)).map Prod.snd

/-- `Map.set` on an existing key keeps the original insertion position. -/
def assocReplace (m : List (String × SubmissionInfo)) (k : String)
    (v : SubmissionInfo) : List (String × SubmissionInfo) :=
  m.map (fun p => if p.1 = k then (k, v) else p)

/-- The body of the `for (const file of files)` loop of
`getSubmissionFiles` (src/src/services/file-parser.ts:75-97): parse the
name; on success, either append the path to the existing record for this
`studentId` (replacing the record's other fields with the new file's) or
insert a fresh record. -/
def stepFile (assignmentType : AssignmentType) (assignmentId directory : String)
    (m : List (String × SubmissionInfo)) (file : String) :
    List (String × SubmissionInfo) :=
  match parseFileName (directory ++ "/" ++ file) assignmentType assignmentId with
  | none => m
  | some info =>
    match assocFind m info.studentId with
    | some old =>
      assocReplace m info.studentId { info with files := old.files ++ info.files }
    | none => m ++ [(info.studentId, info)]

/-- `getSubmissionFiles` (src/src/services/file-parser.ts:65-107) over a
directory listing `files` (the `fs.readdirSync` result, restricted to
regular files; the filesystem calls themselves are outside the model). -/
def getSubmissionFiles (directory : String) (files : List String)
    (assignmentType : AssignmentType) (assignmentId : String) : List SubmissionInfo :=
  (files.foldl (stepFile assignmentType assignmentId directory) []).map Prod.snd

/-- Specification-side description of one record's file list: the paths of
the listing's successfully parsed files carrying the given `studentId`, in
listing order. -/
def filesFor (directory : String) (files : List String)
    (assignmentType : AssignmentType) (assignmentId sid : String) : List String :=
  files.filterMap fun f =>
    match parseFileName (directory ++ "/" ++ f) assignmentType assignmentId with
    | some i => if i.studentId = sid then some (directory ++ "/" ++ f) else none
    | none => none

/- ### src/src/services/result-storage.ts — ResultStorage -/

/-- `ResultStorage.addResult`: a plain `this.results.push(result)`. -/
def addResult (results : List GradingResult) (result : GradingResult) : List GradingResult :=
  results ++ [result]

/-- `ResultStorage.resultExists`. -/
def resultExists (results : List GradingResult) (studentId questionId : String) : Bool :=
  results.any (fun r => r.studentId = studentId && r.questionId = questionId)

/-- Number of stored records under a `(studentId, questionId)` key. -/
def keyCount (results : List GradingResult) (studentId questionId : String) : Nat :=
  (results.filter (fun r => r.studentId = studentId && r.questionId = questionId)).length

/- ### src/src/assignment-processor.ts — the grade application engine -/

/-- The `GradingResultWithStu` records loaded from
`results/grade-book-<assignmentId>.json`.  The type itself is declared in a
module not present in the sources; its fields are those the processor
accesses (`studentId`, `questionId`, `grade`, `comment`), matching the
persisted grade-book record. -/
structure GradingResultWithStu where
  studentId : String
  questionId : String
  grade : ℚ
  comment : String
deriving DecidableEq

structure QuestionToReview where
  id : String
  href : String
  questionNumber : ℚ
  maxPoints : ℚ
deriving DecidableEq

def isDeductPunct (c : Char) : Bool :=
  c = '，' || c = ',' || c = '。' || c = '.' || c = '；' || c = ';' ||
  c = '！' || c = '!' || c = '、' || c = '：' || c = ':'

def isDigit19 (c : Char) : Bool := '1' ≤ c && c ≤ '9'

/-- The mandatory part `扣\s*[1-9]\s*分` of the deduction-phrase regex;
returns the rest after the match. -/
def matchDeductCore (cs : List Char) : Option (List Char) :=
  match cs with
  | [] => none
  | c :: r =>
    if c = '扣' then
      match r.dropWhile isJsWs with
      | [] => none
      | d :: r2 =>
        if isDigit19 d then
          match r2.dropWhile isJsWs with
          | [] => none
          | f :: r4 => if f = '分' then some r4 else none
        else none
    else none

/-- One attempt of `/([，,。.；;！!、：:]\s*)?扣\s*[1-9]\s*分/` at a fixed
position: the optional punctuation group is tried first, with backtracking
to the empty option. -/
def matchDeductAt (cs : List Char) : Option (List Char) :=
  let withPunct : Option (List Char) :=
    match cs with
    | c :: r => if isDeductPunct c then matchDeductCore (r.dropWhile isJsWs) else none
    | [] => none
  match withPunct with
  | some rest => some rest
  | none => matchDeductCore cs

/-- Global replacement by the empty string: scan left to right, removing
each non-overlapping match (replaced text is not rescanned).  Every step
consumes at least one character, so `fuel := length` suffices. -/
def stripDeductAux : Nat → List Char → List Char
  | 0, cs => cs
  | fuel + 1, cs =>
    match cs with
    | [] => []
    | c :: rest =>
      match matchDeductAt (c :: rest) with
      | some r => stripDeductAux fuel r
      | none => c :: stripDeductAux fuel rest

/-- `comment.replace(/([，,。.；;！!、：:]\s*)?扣\s*[1-9]\s*分/g, '')`
(src/src/assignment-processor.ts:142). -/
def stripDeduct (s : String) : String :=
  String.mk (stripDeductAux s.data.length s.data)

/-- Whether the mandatory deduction phrase `扣\s*[1-9]\s*分` occurs
anywhere in the string. -/
def hasDeductAux : List Char → Bool
  | [] => false
  | c :: cs => (matchDeductCore (c :: cs)).isSome || hasDeductAux cs

def containsDeduct (s : String) : Bool := hasDeductAux s.data

/-- Feedback submitted in single mode for a non-binary score
(src/src/assignment-processor.ts:142): the acknowledgment at the hardcoded
full mark 10, otherwise the computed comment with deduction phrases
stripped. -/
def singleFeedback (grade : ℚ) (comment : String) : String :=
  if grade = 10 then "已评分" else stripDeduct comment

/-- Outcome of the single-mode branch for one student. -/
inductive SingleOutcome where
  | skippedNoResult : SingleOutcome
  | skippedNoGrade : SingleOutcome
  | applied (grade : ℚ) (feedback : String) : SingleOutcome
deriving DecidableEq

/-- The single-mode branch of `AssignmentProcessor.processAssignment`
(src/src/assignment-processor.ts:123-148): find the precomputed result for
`(student, assignmentId)`; skip when absent; skip when the grade is falsy
(`!gradeResult?.grade` — which a grade of 0 is); otherwise apply the grade
with the mode-dependent feedback. -/
def singleModeStep (evaluatedGrades : List GradingResultWithStu)
    (studentId assignmentId : String) (binaryScore : Bool) : SingleOutcome :=
  match evaluatedGrades.find?
      (fun r => r.studentId = studentId && r.questionId = assignmentId) with
  | none => .skippedNoResult
  | some r =>
    if r.grade = 0 then .skippedNoGrade
    else if binaryScore then .applied r.grade "已评分"
    else .applied r.grade (singleFeedback r.grade r.comment)

/-- `AssignmentProcessor.gradeByPreviousGradingResults`
(src/src/assignment-processor.ts:432-446): `none` when no precomputed
result matches (log and return); otherwise the grade written and the
comment — the acknowledgment exactly when the grade equals the question's
maximum, the raw computed comment otherwise. -/
def gradeByPreviousGradingResults (evaluatedGrades : List GradingResultWithStu)
    (question : QuestionToReview) (studentId : String) : Option (ℚ × String) :=
  match evaluatedGrades.find?
      (fun r => r.questionId = question.id && r.studentId = studentId) with
  | none => none
  | some r =>
    some (r.grade, if r.grade = question.maxPoints then "已批阅" else r.comment)

/- ### src/unnamed LLMService — batch job lifecycle -/

/-- Batch statuses of the external batch API; the code tests for
`completed` and for the set `failed/cancelled/expired`. -/
inductive BatchStatus where
  | validating : BatchStatus
  | in_progress : BatchStatus
  | finalizing : BatchStatus
  | completed : BatchStatus
  | failed : BatchStatus
  | expired : BatchStatus
  | cancelling : BatchStatus
  | cancelled : BatchStatus
deriving DecidableEq

/-- The statuses on which the polling loop of `LLMService.batchProcess`
stops (it resolves on all four — the rejection on the failure statuses is
commented out in the source). -/
def isTerminalChecked (s : BatchStatus) : Bool :=
  s = .completed || s = .failed || s = .cancelled || s = .expired

/-- The batch object retrieved from the service, as used by
`LLMService.getBatchResult`: its status, the optional output / error file
ids, and `errors?.object`. -/
structure BatchRetrieved where
  status : BatchStatus
  output_file_id : Option String
  error_file_id : Option String
  errorsObject : Option String
deriving DecidableEq

/-- `LLMService.getBatchResult` (src/unnamed/part_004:128-163): whenever
the retrieved batch carries an `output_file_id` — regardless of its status —
the output artifact is downloaded and its path returned; only when there is
no output file does the call throw, with `errors?.object` (not the status)
in the message.  The error-file download is a side effect that does not
change the outcome. -/
def getBatchResult (folderPath : String) (batch : BatchRetrieved) : Except String String :=
  match batch.output_file_id with
  | some _ => .ok (folderPath ++ "/output_file.jsonl")
  | none =>
    .error ("Batch task execute failed, error reason: " ++
      batch.errorsObject.getD "No error details")

/-- `LLMService.batchProcess` (src/unnamed/part_004:171-212) with
`waitForCompletion = true`, over the trace of statuses observed by the
60-second poll: the loop resolves at the first status in the checked
terminal set (completed, failed, cancelled or expired alike); if none is
observed within the ceiling, the 24-hour timeout rejects; afterwards the
result is fetched from the final retrieved batch object. -/
def batchProcess (folderPath : String) (observed : List BatchStatus)
    (finalBatch : BatchRetrieved) : Except String String :=
  match observed.find? isTerminalChecked with
  | none => .error "Batch processing timeout after 24 hours"
  | some _ => getBatchResult folderPath finalBatch

/- ### Auxiliary predicates used in theorem statements -/

/-- Whether the structured layer of `parseResponse` threw (forcing the
regex fallback). -/
def structuredFailed (response : String) : Bool :=
  match structuredGradeComment response with
  | .ok _ => false
  | .error _ => true

/-- Invariant of the accumulating map inside `getSubmissionFiles` after the
listing prefix `processed` has been handled: keys are distinct, every
record sits under its own `studentId` and holds exactly the paths of the
valid files seen so far for that student (in order), and students absent
from the map have no valid files yet. -/
def StoreInv (directory : String) (t : AssignmentType) (aid : String)
    (processed : List String) (m : List (String × SubmissionInfo)) : Prop :=
  (m.map Prod.fst).Nodup ∧
  (∀ p ∈ m, p.2.studentId = p.1 ∧ p.2.files = filesFor directory processed t aid p.1) ∧
  (∀ s1, s1 ∉ m.map Prod.fst → filesFor directory processed t aid s1 = [])

/- ## Theorems

Batteries marks the `Rat` arithmetic operations `@[irreducible]`, which
blocks `decide`/`rfl` evaluation of the embedded parsers on concrete
inputs; restore the default transparency for this file. -/

attribute [local semireducible] Rat.add Rat.mul Rat.sub Rat.inv Rat.ofScientific

/-- C1 counterexample: `addResult` is a plain push, so adding two results
with the same `(studentId, questionId)` key to an empty store leaves two
records under that key, not one — refuting the claimed idempotent
overwrite. -/
theorem C1_counterexample :
    keyCount (addResult (addResult []
        ⟨"123456", "000001", Json.num 5, "first attempt", "2025/4/9 16:10:12"⟩)
        ⟨"123456", "000001", Json.num 7, "second attempt", "2025/4/9 16:20:12"⟩)
      "123456" "000001" = 2 := by
  decide

/-- C1 amended: `add` appends unconditionally — two calls with the same key
add two records (the count under the key grows by two) and the later result
sits at the end of the store; duplicate avoidance is left to callers
checking `resultExists` before adding. -/
theorem C1_amended (s : List GradingResult) (r1 r2 : GradingResult) (sid qid : String)
    (h1 : r1.studentId = sid) (h2 : r1.questionId = qid)
    (h3 : r2.studentId = sid) (h4 : r2.questionId = qid) :
    keyCount (addResult (addResult s r1) r2) sid qid = keyCount s sid qid + 2 ∧
    (addResult (addResult s r1) r2).getLast? = some r2 := by
  constructor
  · simp [keyCount, addResult, List.filter_append, h1, h2, h3, h4]
  · simp [addResult]

/-- C1 witness: the amended statement at a concrete store and key. -/
theorem C1_witness :
    keyCount (addResult (addResult []
        ⟨"654321", "000002", Json.num 1, "a", "t1"⟩)
        ⟨"654321", "000002", Json.num 2, "b", "t2"⟩) "654321" "000002" =
      keyCount [] "654321" "000002" + 2 ∧
    (addResult (addResult []
        ⟨"654321", "000002", Json.num 1, "a", "t1"⟩)
        ⟨"654321", "000002", Json.num 2, "b", "t2"⟩).getLast? =
      some ⟨"654321", "000002", Json.num 2, "b", "t2"⟩ :=
  C1_amended [] _ _ "654321" "000002" rfl rfl rfl rfl

/-- C2 counterexample: the grader-service response parser
(`GradingService.parseResponse`) performs no clamping — a structured
response carrying grade 200 is stored as 200, which exceeds a maximum of
100. -/
theorem C2_counterexample :
    (parseResponse "2025/4/9 16:10:12"
        "\x7b\"grade\": 200, \"comment\": \"x\"\x7d" "123456" "000001").grade =
      Json.num 200 ∧
    ¬ ((200 : ℚ) ≤ 100) := by
  constructor
  · rfl
  · norm_num

/-- C2 amended: the clamping invariant holds for the llm-api response
parser (`parseGradingResponse`), whose final score is
`Math.min(Math.max(0, score), maxPoints)`; the grader-service parser (see
the counterexample) stores the extracted number unclamped. -/
theorem C2_amended (response : String) (maxPoints : ℚ) (h : 0 < maxPoints) :
    0 ≤ (parseGradingResponse response maxPoints).score ∧
    (parseGradingResponse response maxPoints).score ≤ maxPoints := by
  refine ⟨le_min (le_max_left 0 _) h.le, min_le_right _ _⟩

/-- C2 witness: an out-of-range oracle score of 200 against a maximum of 10
stays within the bounds. -/
theorem C2_witness :
    (0 : ℚ) < 10 ∧
    (0 ≤ (parseGradingResponse "SCORE: 200\nFEEDBACK: ok" 10).score ∧
     (parseGradingResponse "SCORE: 200\nFEEDBACK: ok" 10).score ≤ 10) :=
  ⟨by norm_num, C2_amended "SCORE: 200\nFEEDBACK: ok" 10 (by norm_num)⟩

/-- C3 counterexample: on `grade: 7 comment: "good"` (unquoted keys, no
comma) the structured parse throws and the fallback regex — which requires
the quoted-key form `"grade": <n>, "comment": "<text>"` — does not match
either, so the parser returns the degraded zero-score result, not
`score 7 / feedback good` as the claim states. -/
theorem C3_counterexample :
    (parseResponse "2025/4/9 16:10:12" "grade: 7 comment: \"good\"" "123456" "000001").grade =
      Json.num 0 ∧
    (parseResponse "2025/4/9 16:10:12" "grade: 7 comment: \"good\"" "123456" "000001").comment ≠
      "good" := by
  constructor
  · rfl
  · decide

/-- C3 amended: the textual fallback fires on the quoted form: the (still
not valid JSON) response `"grade": 7, "comment": "good"` yields grade 7 and
feedback `good` via pattern extraction, not the degraded zero-score
result. -/
theorem C3_amended (now studentId questionId : String) :
    parseResponse now "\"grade\": 7, \"comment\": \"good\"" studentId questionId =
      { studentId := studentId, questionId := questionId, grade := Json.num 7,
        comment := "good", gradedAt := now } := by
  rfl

/-- C5: on every failure path — a rejected transport promise, an empty
response, or a response on which both the structured parse and the regex
fallback fail — `GradingService.gradeSubmission` returns the degraded
result: grade 0 with a feedback string naming the error.  (Totality of the
embedded function is the never-raises guarantee of the enclosing
`try/catch`.) -/
theorem C5_theorem (now content : String) (submission : SubmissionInfo)
    (question : Question) (oracle : String → Except String String)
    (h : (∃ e, oracle (gradePrompt content question) = .error e) ∨
         oracle (gradePrompt content question) = .ok "" ∨
         (∃ resp, oracle (gradePrompt content question) = .ok resp ∧
            structuredFailed resp = true ∧ regexGradeComment resp = none)) :
    (gradeSubmission now oracle submission content question).grade = Json.num 0 ∧
    ((∃ e, (gradeSubmission now oracle submission content question).comment =
        "> Error grading submission: " ++ e) ∨
     (∃ e, (gradeSubmission now oracle submission content question).comment =
        "> Error parsing grading response: " ++ e)) := by
  unfold gradeSubmission
  rcases h with ⟨e, he⟩ | he | ⟨resp, he, hs, hr⟩
  · rw [he]
    exact ⟨rfl, Or.inl ⟨e, rfl⟩⟩
  · rw [he]
    simp only [if_pos rfl]
    exact ⟨rfl, Or.inl ⟨"Empty response from LLM", rfl⟩⟩
  · rw [he]
    by_cases hresp : resp = ""
    · simp only [hresp, if_pos rfl]
      exact ⟨rfl, Or.inl ⟨"Empty response from LLM", rfl⟩⟩
    · simp only [if_neg hresp]
      unfold parseResponse
      unfold structuredFailed at hs
      rcases hsc : structuredGradeComment resp with e1 | v
      · refine ⟨?_, Or.inr ⟨e1, ?_⟩⟩ <;> simp [hr]
      · rw [hsc] at hs
        simp at hs

/-- C5 witness: a transport failure produces the degraded zero-grade
result with an error-bearing comment. -/
theorem C5_witness :
    (gradeSubmission "2025/4/9 16:10:12" (fun _ => Except.error "network error")
        ⟨"1234567", "123456", "000001", "0000001", []⟩ "print(1)"
        ⟨"000001", none, some 10, "rubric"⟩).grade = Json.num 0 ∧
    ((∃ e, (gradeSubmission "2025/4/9 16:10:12" (fun _ => Except.error "network error")
        ⟨"1234567", "123456", "000001", "0000001", []⟩ "print(1)"
        ⟨"000001", none, some 10, "rubric"⟩).comment =
        "> Error grading submission: " ++ e) ∨
     (∃ e, (gradeSubmission "2025/4/9 16:10:12" (fun _ => Except.error "network error")
        ⟨"1234567", "123456", "000001", "0000001", []⟩ "print(1)"
        ⟨"000001", none, some 10, "rubric"⟩).comment =
        "> Error parsing grading response: " ++ e)) :=
  C5_theorem "2025/4/9 16:10:12" "print(1)" ⟨"1234567", "123456", "000001", "0000001", []⟩
    ⟨"000001", none, some 10, "rubric"⟩ (fun _ => Except.error "network error")
    (Or.inl ⟨"network error", rfl⟩)

/-- C6 counterexample: a batch whose observed status trace ends in
`expired` (a terminal state other than `completed`) but whose retrieved
object still carries an `output_file_id` makes the batch operation succeed
and return the output artifact — refuting both halves of the claim (it
neither fails with the status as reason, nor is `completed` required for an
output artifact).  The rejection carrying the status is commented out in
the source poll loop. -/
theorem C6_counterexample :
    batchProcess "./results/batch_82752" [BatchStatus.in_progress, BatchStatus.expired]
      ⟨BatchStatus.expired, some "file-abc", none, none⟩ =
      Except.ok "./results/batch_82752/output_file.jsonl" := by
  rfl

/-- C6 amended: the batch result fetch succeeds exactly when the retrieved
job exposes an output artifact, regardless of its terminal status; when no
artifact is present it fails with the job's recorded error object (or a
canned placeholder) as reason — not with the job's last known status. -/
theorem C6_amended (folderPath : String) (batch : BatchRetrieved) :
    ((∃ p, getBatchResult folderPath batch = .ok p) ↔ batch.output_file_id.isSome = true) ∧
    (batch.output_file_id = none →
      getBatchResult folderPath batch =
        .error ("Batch task execute failed, error reason: " ++
          batch.errorsObject.getD "No error details")) := by
  obtain ⟨st, ofid, efid, eobj⟩ := batch
  cases ofid <;> simp [getBatchResult]

/-- C6 witness: a failed batch without an output artifact fails with the
recorded error object in the message. -/
theorem C6_witness :
    getBatchResult "./results/batch_82752"
        ⟨BatchStatus.failed, none, some "err-file", some "quota exceeded"⟩ =
      Except.error "Batch task execute failed, error reason: quota exceeded" :=
  (C6_amended "./results/batch_82752"
    ⟨BatchStatus.failed, none, some "err-file", some "quota exceeded"⟩).2 rfl

/-- C7 counterexample: a precomputed result for the student is present in
the grade book, yet because its grade is 0 (falsy under the
`!gradeResult?.grade` check) the engine logs and skips without applying
anything — refuting the claim that every present result is applied. -/
theorem C7_counterexample :
    (([⟨"123456", "82752", 0, "answer incomplete"⟩] : List GradingResultWithStu).find?
        (fun r => r.studentId = "123456" && r.questionId = "82752")).isSome = true ∧
    singleModeStep [⟨"123456", "82752", 0, "answer incomplete"⟩] "123456" "82752" false =
      SingleOutcome.skippedNoGrade := by
  constructor
  · rfl
  · rfl

/-- C7 amended: in single-question mode the engine applies the precomputed
score only when a result for `(student, assignmentId)` is found *and* its
grade is nonzero; a found result with grade 0 is logged and skipped exactly
like a missing one. -/
theorem C7_amended (grades : List GradingResultWithStu) (studentId assignmentId : String)
    (binaryScore : Bool) :
    (grades.find? (fun r => r.studentId = studentId && r.questionId = assignmentId) = none →
      singleModeStep grades studentId assignmentId binaryScore =
        SingleOutcome.skippedNoResult) ∧
    (∀ r, grades.find? (fun r => r.studentId = studentId && r.questionId = assignmentId) =
        some r →
      (r.grade = 0 → singleModeStep grades studentId assignmentId binaryScore =
        SingleOutcome.skippedNoGrade) ∧
      (r.grade ≠ 0 → singleModeStep grades studentId assignmentId binaryScore =
        SingleOutcome.applied r.grade
          (if binaryScore then "已评分" else singleFeedback r.grade r.comment))) := by
  unfold singleModeStep
  constructor
  · intro h
    rw [h]
  · intro r h
    rw [h]
    constructor
    · intro h0
      simp [h0]
    · intro h0
      cases binaryScore <;> simp [h0]

/-- C7 witness: a present result with a nonzero grade is applied with its
score. -/
theorem C7_witness :
    singleModeStep [⟨"123456", "82752", 7, "做得不错"⟩] "123456" "82752" false =
      SingleOutcome.applied 7 (singleFeedback 7 "做得不错") :=
  ((C7_amended [⟨"123456", "82752", 7, "做得不错"⟩] "123456" "82752" false).2
    ⟨"123456", "82752", 7, "做得不错"⟩ rfl).2 (by norm_num)

/-- C8 counterexample: in the single-mode path, a grade of 8 (not the full
mark 10) still has its deduction phrase `，扣2分` stripped from the
feedback — the suppression is not limited to full-mark results, refuting
the claimed "exactly when the grade equals the maximum". -/
theorem C8_counterexample :
    singleModeStep [⟨"123456", "82752", 8, "做得一般，扣2分"⟩] "123456" "82752" false =
      SingleOutcome.applied 8 "做得一般" ∧
    containsDeduct "做得一般，扣2分" = true ∧
    containsDeduct "做得一般" = false ∧
    (8 : ℚ) ≠ 10 := by
  refine ⟨rfl, rfl, rfl, by norm_num⟩

/-- C8 amended: in the multi-question reuse path the feedback is the short
acknowledgment `已批阅` exactly when the grade equals the question's
`maxPoints`, and the raw computed comment otherwise; in the single-question
path full marks are recognised as the constant 10 (feedback `已评分`), and
for every other grade the deduction-phrase pattern is stripped from the
computed feedback, so there the suppression applies to all grades, not just
full marks. -/
theorem C8_amended (grades : List GradingResultWithStu) (question : QuestionToReview)
    (studentId : String) (r : GradingResultWithStu)
    (h : grades.find? (fun x => x.questionId = question.id && x.studentId = studentId) =
      some r) :
    (r.grade = question.maxPoints →
      gradeByPreviousGradingResults grades question studentId = some (r.grade, "已批阅")) ∧
    (r.grade ≠ question.maxPoints →
      gradeByPreviousGradingResults grades question studentId = some (r.grade, r.comment)) ∧
    (∀ (g : ℚ) (c : String), g ≠ 10 → singleFeedback g c = stripDeduct c) ∧
    (∀ c : String, singleFeedback 10 c = "已评分") := by
  unfold gradeByPreviousGradingResults
  rw [h]
  refine ⟨fun he => by simp [he], fun he => by simp [he], fun g c hg => ?_, fun c => ?_⟩
  · simp [singleFeedback, hg]
  · simp [singleFeedback]

/-- C8 witness: a full-mark reuse result gets the acknowledgment, and a
non-full single-mode grade gets the stripped comment. -/
theorem C8_witness :
    gradeByPreviousGradingResults [⟨"123456", "q17", 10, "raw comment"⟩]
        ⟨"q17", "#question_q17", 1, 10⟩ "123456" = some (10, "已批阅") ∧
    singleFeedback 9 "还行，扣1分" = stripDeduct "还行，扣1分" :=
  ⟨((C8_amended [⟨"123456", "q17", 10, "raw comment"⟩] ⟨"q17", "#question_q17", 1, 10⟩
      "123456" ⟨"123456", "q17", 10, "raw comment"⟩ rfl).1 rfl),
   ((C8_amended [⟨"123456", "q17", 10, "raw comment"⟩] ⟨"q17", "#question_q17", 1, 10⟩
      "123456" ⟨"123456", "q17", 10, "raw comment"⟩ rfl).2.2.1 9 "还行，扣1分"
      (by norm_num))⟩

/-- C9: the single-mode filename grammar accepts the optional `LATE_`
infix — `1234567_LATE_123456_0001234_file.py` parses to studentId `123456`,
submissionId `0001234`, and the run's configured assignment identifier as
`questionId`. -/
theorem C9_theorem (assignmentId : String) :
    parseFileName "1234567_LATE_123456_0001234_file.py" AssignmentType.single assignmentId =
      some { studentNumber := "1234567", studentId := "123456", questionId := assignmentId,
             submissionId := "0001234",
             files := ["1234567_LATE_123456_0001234_file.py"] } := by
  rfl

/-- Every branch of `parseResponse` copies the `studentId`/`questionId`
arguments into the result. -/
theorem parseResponse_ids (now resp sid qid : String) :
    (parseResponse now resp sid qid).studentId = sid ∧
    (parseResponse now resp sid qid).questionId = qid := by
  unfold parseResponse
  rcases structuredGradeComment resp with e | ⟨g, c⟩
  · rcases regexGradeComment resp with _ | ⟨ns, cm⟩ <;> exact ⟨rfl, rfl⟩
  · exact ⟨rfl, rfl⟩

/-- C10: `GradingService.gradeSubmission` carries the submission's
`studentId` and `questionId` into the result on every path — success,
transport failure, empty response, and each parsing fallback — so degraded
results stay correlated with their requests. -/
theorem C10_theorem (now content : String) (oracle : String → Except String String)
    (submission : SubmissionInfo) (question : Question) :
    (gradeSubmission now oracle submission content question).studentId =
      submission.studentId ∧
    (gradeSubmission now oracle submission content question).questionId =
      submission.questionId := by
  unfold gradeSubmission
  cases oracle (gradePrompt content question) with
  | error e => exact ⟨rfl, rfl⟩
  | ok response =>
    dsimp only
    by_cases hr : response = ""
    · subst hr
      exact ⟨rfl, rfl⟩
    · rw [if_neg hr]
      exact parseResponse_ids now response submission.studentId submission.questionId

/-- A successful `parseFileName` always returns a record whose file list is
exactly the parsed path. -/
theorem parseFileName_files (p : String) (t : AssignmentType) (aid : String)
    (i : SubmissionInfo) (h : parseFileName p t aid = some i) : i.files = [p] := by
  unfold parseFileName at h
  cases t <;> simp only [Option.map_eq_some'] at h <;>
    obtain ⟨x, -, rfl⟩ := h <;> rfl

/-- A file whose parse fails contributes nothing to any student's expected
file list. -/
theorem filesFor_append_of_none (directory : String) (t : AssignmentType)
    (aid : String) (processed : List String) (f : String) (s1 : String)
    (hp : parseFileName (directory ++ "/" ++ f) t aid = none) :
    filesFor directory (processed ++ [f]) t aid s1 =
      filesFor directory processed t aid s1 := by
  unfold filesFor
  rw [List.filterMap_append]
  simp [hp]

/-- A successfully parsed file appends its path to exactly its own
student's expected file list. -/
theorem filesFor_append_of_some (directory : String) (t : AssignmentType)
    (aid : String) (processed : List String) (f : String) (s1 : String)
    (i : SubmissionInfo) (hp : parseFileName (directory ++ "/" ++ f) t aid = some i) :
    filesFor directory (processed ++ [f]) t aid s1 =
      filesFor directory processed t aid s1 ++
        (if i.studentId = s1 then [directory ++ "/" ++ f] else []) := by
  unfold filesFor
  rw [List.filterMap_append]
  by_cases hs : i.studentId = s1 <;> simp [hp, hs]

/-- `assocReplace` does not change the key column. -/
theorem assocReplace_keys (m : List (String × SubmissionInfo)) (k : String)
    (v : SubmissionInfo) : (assocReplace m k v).map Prod.fst = m.map Prod.fst := by
  unfold assocReplace
  rw [List.map_map]
  refine List.map_congr_left fun p _ => ?_
  by_cases h : p.1 = k <;> simp [h]

/-- A hit in `assocFind` exhibits a pair of the map with the searched key. -/
theorem assocFind_some (m : List (String × SubmissionInfo)) (k : String)
    (v : SubmissionInfo) (h : assocFind m k = some v) :
    (k, v) ∈ m := by
  unfold assocFind at h
  simp only [Option.map_eq_some'] at h
  obtain ⟨p, hp, rfl⟩ := h
  have hmem := List.mem_of_find?_eq_some hp
  have hkey := List.find?_some hp
  simp only [decide_eq_true_eq] at hkey
  rw [← hkey, Prod.mk.eta]
  exact hmem

/-- A miss in `assocFind` means the key is absent. -/
theorem assocFind_none (m : List (String × SubmissionInfo)) (k : String)
    (h : assocFind m k = none) : k ∉ m.map Prod.fst := by
  unfold assocFind at h
  simp only [Option.map_eq_none'] at h
  rw [List.find?_eq_none] at h
  intro hk
  obtain ⟨p, hp, hkey⟩ := List.mem_map.mp hk
  have := h p hp
  simp [hkey] at this

/-- One loop iteration of `getSubmissionFiles` preserves the store
invariant. -/
theorem stepFile_inv (directory : String) (t : AssignmentType) (aid : String)
    (processed : List String) (m : List (String × SubmissionInfo)) (f : String)
    (hInv : StoreInv directory t aid processed m) :
    StoreInv directory t aid (processed ++ [f])
      (stepFile t aid directory m f) := by
  obtain ⟨hnd, hmem, habs⟩ := hInv
  unfold stepFile
  cases hp : parseFileName (directory ++ "/" ++ f) t aid with
  | none =>
    dsimp only
    refine ⟨hnd, fun p hpm => ?_, fun s1 hs => ?_⟩
    · rw [filesFor_append_of_none directory t aid processed f _ hp]
      exact hmem p hpm
    · rw [filesFor_append_of_none directory t aid processed f _ hp]
      exact habs s1 hs
  | some info =>
    have hif : info.files = [directory ++ "/" ++ f] :=
      parseFileName_files _ _ _ _ hp
    dsimp only
    cases hfind : assocFind m info.studentId with
    | some old =>
      dsimp only
      have holdmem : (info.studentId, old) ∈ m := assocFind_some m _ old hfind
      have hold := hmem _ holdmem
      refine ⟨by rw [assocReplace_keys]; exact hnd, fun p hpm => ?_, fun s1 hs => ?_⟩
      · unfold assocReplace at hpm
        obtain ⟨q, hq, hqe⟩ := List.mem_map.mp hpm
        by_cases hqk : q.1 = info.studentId
        · rw [if_pos hqk] at hqe
          subst hqe
          refine ⟨rfl, ?_⟩
          simp only
          rw [hif, filesFor_append_of_some directory t aid processed f _ _ hp,
            if_pos rfl, hold.2]
        · rw [if_neg hqk] at hqe
          subst hqe
          have hq2 := hmem q hq
          have hne : info.studentId ≠ q.1 := fun he => hqk he.symm
          refine ⟨hq2.1, ?_⟩
          rw [filesFor_append_of_some directory t aid processed f _ _ hp, if_neg hne,
            List.append_nil]
          exact hq2.2
      · rw [assocReplace_keys] at hs
        rw [filesFor_append_of_some directory t aid processed f _ _ hp]
        have hks : info.studentId ≠ s1 := by
          intro he
          exact hs (he ▸ List.mem_map.mpr ⟨(info.studentId, old), holdmem, rfl⟩)
        rw [if_neg hks, habs s1 hs, List.nil_append]
    | none =>
      dsimp only
      have hnotin : info.studentId ∉ m.map Prod.fst := assocFind_none m _ hfind
      refine ⟨?_, fun p hpm => ?_, fun s1 hs => ?_⟩
      · rw [List.map_append]
        simp only [List.map_cons, List.map_nil]
        exact List.Nodup.append hnd (List.nodup_singleton _)
          (by intro a ha hb; simp at hb; subst hb; exact hnotin ha)
      · rcases List.mem_append.mp hpm with hin | hnew
        · have hq2 := hmem p hin
          refine ⟨hq2.1, ?_⟩
          rw [filesFor_append_of_some directory t aid processed f _ _ hp]
          have : info.studentId ≠ p.1 := by
            intro he
            exact hnotin (he ▸ List.mem_map.mpr ⟨p, hin, rfl⟩)
          rw [if_neg this, hq2.2, List.append_nil]
        · simp only [List.mem_singleton] at hnew
          subst hnew
          refine ⟨rfl, ?_⟩
          simp only
          rw [hif, filesFor_append_of_some directory t aid processed f _ _ hp, if_pos rfl,
            habs info.studentId hnotin, List.nil_append]
      · rw [List.map_append] at hs
        simp only [List.map_cons, List.map_nil, List.mem_append,
          List.mem_singleton, not_or] at hs
        rw [filesFor_append_of_some directory t aid processed f _ _ hp,
          if_neg (fun he => hs.2 he.symm), habs s1 hs.1, List.nil_append]

/-- The invariant carried over the whole fold. -/
theorem foldl_stepFile_inv (directory : String) (t : AssignmentType) (aid : String) :
    ∀ (files processed : List String) (m : List (String × SubmissionInfo)),
      StoreInv directory t aid processed m →
      StoreInv directory t aid (processed ++ files)
        (files.foldl (stepFile t aid directory) m) := by
  intro files
  induction files with
  | nil => intro processed m h; simpa using h
  | cons f fs ih =>
    intro processed m h
    have h1 := stepFile_inv directory t aid processed m f h
    have h2 := ih (processed ++ [f]) _ h1
    simpa [List.append_assoc] using h2

/-- C4 counterexample: two files of the same student for *different*
questions are merged into a single record (keyed by `studentId` alone),
whose metadata comes from the later file — refuting the claim that files
with the same `studentId` but different `questionId`s yield distinct
records. -/
theorem C4_counterexample :
    getSubmissionFiles "downloads"
        ["1234567123456_question_000001_0000001_a.py",
         "1234567123456_question_000002_0000002_b.py"]
        AssignmentType.group "82752" =
      [{ studentNumber := "1234567", studentId := "123456", questionId := "000002",
         submissionId := "0000002",
         files := ["downloads/1234567123456_question_000001_0000001_a.py",
                   "downloads/1234567123456_question_000002_0000002_b.py"] }] := by
  rfl

/-- C4 amended: `getSubmissionFiles` groups by `studentId` alone — the
output holds one record per student that has at least one parseable file,
and that record's file list is exactly the student's parseable paths in
listing order (regardless of their `questionId`s). -/
theorem C4_amended (directory : String) (files : List String) (t : AssignmentType)
    (aid : String) :
    ((getSubmissionFiles directory files t aid).map SubmissionInfo.studentId).Nodup ∧
    ∀ r ∈ getSubmissionFiles directory files t aid,
      r.files = filesFor directory files t aid r.studentId := by
  have h0 : StoreInv directory t aid [] [] :=
    ⟨List.nodup_nil, fun p hp => absurd hp (List.not_mem_nil p), fun s1 _ => rfl⟩
  have h := foldl_stepFile_inv directory t aid files [] [] h0
  rw [List.nil_append] at h
  obtain ⟨hnd, hmem, -⟩ := h
  constructor
  · unfold getSubmissionFiles
    rw [List.map_map]
    have hco : (List.foldl (stepFile t aid directory) [] files).map
        (SubmissionInfo.studentId ∘ Prod.snd) =
        (List.foldl (stepFile t aid directory) [] files).map Prod.fst :=
      List.map_congr_left fun p hp => (hmem p hp).1
    rw [hco]
    exact hnd
  · intro r hr
    unfold getSubmissionFiles at hr
    obtain ⟨p, hp, rfl⟩ := List.mem_map.mp hr
    have h2 := hmem p hp
    rw [h2.1]
    exact h2.2

/-- C4 witness: the amended statement evaluated on a concrete single-mode
listing. -/
theorem C4_witness :
    ((getSubmissionFiles "d" ["1234567_123456_0001234_a.py"]
        AssignmentType.single "82752").map SubmissionInfo.studentId).Nodup ∧
    ({ studentNumber := "1234567", studentId := "123456", questionId := "82752",
       submissionId := "0001234",
       files := ["d/1234567_123456_0001234_a.py"] } : SubmissionInfo).files =
      filesFor "d" ["1234567_123456_0001234_a.py"] AssignmentType.single "82752"
        "123456" :=
  ⟨(C4_amended "d" ["1234567_123456_0001234_a.py"] AssignmentType.single "82752").1,
   (C4_amended "d" ["1234567_123456_0001234_a.py"] AssignmentType.single "82752").2
     _ (by decide)⟩

end AutoGrade
